import Mathlib

/-!
Verification of the smart-ai-broker trading engine against its specification.

The Python backend is shallowly embedded: money and prices are modelled as
exact rationals (`ℚ`), share quantities as integers (`ℤ`, Python `int`),
the per-user database rows as explicit Lean structures, and Python
exceptions as `Except String` (an exception raised before `db.commit`
leaves the persistent state untouched, so a failing call yields an
`Except.error` and no successor state).  An assoc list keyed by ticker id
stands for the portfolio table; the price-tick store is abstracted to its
latest-price view per ticker, which is exactly what `get_latest_price`
resolves: the price of the most recent tick, or an error when the ticker
has no ticks at all.
-/

/-- Round-half-to-even on rationals (Python's `round` tie-breaking rule). -/
def roundHalfEven (x : ℚ) : ℤ :=
  let f : ℤ := ⌊x⌋
  let r : ℚ := x - f
  if r < 1/2 then f
  else if 1/2 < r then f + 1
  else if f % 2 = 0 then f else f + 1

/-- Python `round(x, 2)`: round to two fractional digits, ties to even. -/
def round2 (x : ℚ) : ℚ := ((roundHalfEven (x * 100) : ℤ) : ℚ) / 100

/-- Python `int(x)`: truncation toward zero. -/
def pyInt (q : ℚ) : ℤ := if 0 ≤ q then ⌊q⌋ else ⌈q⌉

/-- Python `f"{x:.2f}"` rendering of a rational: two fractional digits. -/
def fmt2 (q : ℚ) : String :=
  let n : ℤ := roundHalfEven (q * 100)
  let s : String := if n < 0 then "-" else ""
  let m : ℕ := n.natAbs
  s ++ toString (m / 100) ++ "." ++ (if m % 100 < 10 then "0" else "") ++ toString (m % 100)

/-! Section: Ledger / execution engine (src/backend/app/services/trading.py)

A `Market` is the latest-price view of the price-tick store: for each
ticker id, the price `get_latest_price` would resolve.  `AccountState`
bundles the rows owned by one user: the `accounts.cash_balance` column,
the `portfolios` table (assoc list on ticker id) and the append-only
`trades` log. -/

abbrev Market := List (ℕ × ℚ)

structure PortfolioPos where
  quantity : ℤ
  avg_price : ℚ
  current_price : ℚ
  deriving Repr, DecidableEq

structure TradeRec where
  ticker_id : ℕ
  action : String
  quantity : ℤ
  price : ℚ
  total_amount : ℚ
  cash_after : ℚ
  deriving Repr, DecidableEq

structure AccountState where
  cash_balance : ℚ
  portfolios : List (ℕ × PortfolioPos)
  trades : List TradeRec
  deriving Repr, DecidableEq

/-- Model of `get_latest_price`: most recent tick's price for the ticker, or an
error when no price data exists. -/
def get_latest_price (market : Market) (ticker_id : ℕ) : Except String ℚ :=
  match List.lookup ticker_id market with
  | some p => .ok p
  | none => .error ("No price data available for this ticker")

/-- Replace the value stored under key `k` (the ORM mutation of the
portfolio row found by `execute_buy`/`execute_sell`). -/
def setKey (l : List (ℕ × PortfolioPos)) (k : ℕ) (v : PortfolioPos) :
    List (ℕ × PortfolioPos) :=
  l.map fun e => if e.1 = k then (k, v) else e

/-- Delete the row stored under key `k` (`db.delete(portfolio)`). -/
def removeKey (l : List (ℕ × PortfolioPos)) (k : ℕ) : List (ℕ × PortfolioPos) :=
  l.filter fun e => decide (e.1 ≠ k)

/-- Model of `execute_buy(db, user_id, ticker_id, quantity)`: resolve the latest
price, check funds, debit cash, update or create the portfolio row, and
append the BUY trade record carrying the post-trade cash balance. -/
def execute_buy (market : Market) (s : AccountState) (ticker_id : ℕ)
    (quantity : ℤ) : Except String AccountState :=
  match get_latest_price market ticker_id with
  | .error e => .error e
  | .ok current_price =>
    let total_cost := current_price * (quantity : ℚ)
    if s.cash_balance < total_cost then
      .error ("Insufficient funds. Required: $" ++ fmt2 total_cost ++
        ", Available: $" ++ fmt2 s.cash_balance)
    else
      let cash' := s.cash_balance - total_cost
      match List.lookup ticker_id s.portfolios with
      | some portfolio =>
        let total_quantity := portfolio.quantity + quantity
        let avg' := (portfolio.avg_price * (portfolio.quantity : ℚ) + total_cost) /
          (total_quantity : ℚ)
        .ok { cash_balance := cash'
              portfolios := setKey s.portfolios ticker_id
                { quantity := total_quantity, avg_price := avg',
                  current_price := current_price }
              trades := s.trades ++
                [{ ticker_id := ticker_id, action := "BUY", quantity := quantity,
                   price := current_price, total_amount := total_cost,
                   cash_after := cash' }] }
      | none =>
        .ok { cash_balance := cash'
              portfolios := s.portfolios ++
                [(ticker_id, { quantity := quantity, avg_price := current_price,
                               current_price := current_price })]
              trades := s.trades ++
                [{ ticker_id := ticker_id, action := "BUY", quantity := quantity,
                   price := current_price, total_amount := total_cost,
                   cash_after := cash' }] }

/-- Model of `execute_sell(db, user_id, ticker_id, quantity)`: resolve the latest
price, resolve the position (error when absent), check share sufficiency,
decrement (deleting the row when the quantity reaches zero), credit cash,
and append the SELL trade record carrying the post-trade cash balance. -/
def execute_sell (market : Market) (s : AccountState) (ticker_id : ℕ)
    (quantity : ℤ) : Except String AccountState :=
  match get_latest_price market ticker_id with
  | .error e => .error e
  | .ok current_price =>
    let total_revenue := current_price * (quantity : ℚ)
    match List.lookup ticker_id s.portfolios with
    | none => .error ("No position found for this ticker")
    | some portfolio =>
      if portfolio.quantity < quantity then
        .error ("Insufficient shares. You have " ++ toString portfolio.quantity ++
          ", trying to sell " ++ toString quantity)
      else
        let newQty := portfolio.quantity - quantity
        let portfolios' :=
          if newQty = 0 then removeKey s.portfolios ticker_id
          else setKey s.portfolios ticker_id
            { portfolio with quantity := newQty, current_price := current_price }
        let cash' := s.cash_balance + total_revenue
        .ok { cash_balance := cash'
              portfolios := portfolios'
              trades := s.trades ++
                [{ ticker_id := ticker_id, action := "SELL", quantity := quantity,
                   price := current_price, total_amount := total_revenue,
                   cash_after := cash' }] }

/-! Sequences of ledger operations, for the conservation invariant.  Each
operation records the side, the market at the moment it runs (the price
store may move between operations), the ticker and the quantity. -/

inductive Side where
  | buy
  | sell
  deriving Repr, DecidableEq

structure Op where
  side : Side
  market : Market
  ticker_id : ℕ
  quantity : ℤ
  deriving Repr, DecidableEq

def runOp (s : AccountState) (op : Op) : Except String AccountState :=
  match op.side with
  | .buy => execute_buy op.market s op.ticker_id op.quantity
  | .sell => execute_sell op.market s op.ticker_id op.quantity

def runOps (s : AccountState) : List Op → Except String AccountState
  | [] => .ok s
  | op :: rest =>
    match runOp s op with
    | .ok s' => runOps s' rest
    | .error e => .error e

/-- The price an operation resolves through `get_latest_price` (total
version; every successful operation resolves a stored price). -/
def opResolvedPrice (op : Op) : ℚ := (List.lookup op.ticker_id op.market).getD 0

/-- Signed cash delta of one operation: `-price*quantity` for a BUY,
`+price*quantity` for a SELL. -/
def opDelta (op : Op) : ℚ :=
  match op.side with
  | .buy => -(opResolvedPrice op * (op.quantity : ℚ))
  | .sell => opResolvedPrice op * (op.quantity : ℚ)

def sumBuyCost (ops : List Op) : ℚ :=
  (ops.map fun op =>
    match op.side with
    | .buy => opResolvedPrice op * (op.quantity : ℚ)
    | .sell => 0).sum

def sumSellRev (ops : List Op) : ℚ :=
  (ops.map fun op =>
    match op.side with
    | .buy => 0
    | .sell => opResolvedPrice op * (op.quantity : ℚ)).sum

def sumDelta (ops : List Op) : ℚ := (ops.map opDelta).sum

/-! Section: Indicator engine (src/backend/app/services/indicators.py)

pandas computes over IEEE floats, and the RSI expression
`100 - 100/(1 + avg_gain/avg_loss)` genuinely exercises the IEEE special
values: a positive number divided by `0.0` is `+inf` and `0.0/0.0` is
`NaN`.  `RFloat` embeds exactly the values this expression can take:
finite rationals plus the two infinities and `NaN`. -/

inductive RFloat where
  | nan
  | inf
  | ninf
  | fin (q : ℚ)
  deriving Repr, DecidableEq

/-- IEEE `<` on the embedded floats: any comparison with NaN is false. -/
def RFloat.ltb : RFloat → RFloat → Bool
  | _, .nan => false
  | .nan, _ => false
  | .ninf, .ninf => false
  | .ninf, _ => true
  | _, .ninf => false
  | .inf, _ => false
  | .fin _, .inf => true
  | .fin a, .fin b => decide (a < b)

/-- IEEE division `g / l` for the RSI's `rs`, on nonnegative rolling
means: `pos/0 = +inf`, `neg/0 = -inf`, `0/0 = NaN`. -/
def rsOf (g l : ℚ) : RFloat :=
  if l = 0 then
    (if g = 0 then .nan else if 0 < g then .inf else .ninf)
  else .fin (g / l)

/-- IEEE evaluation of `100 - 100/(1 + rs)` for the values `rs` can take
(`rs ≥ 0` or an IEEE special): `rs = +inf` gives exactly `100`,
`rs = NaN` propagates NaN. -/
def rsiOf : RFloat → RFloat
  | .nan => .nan
  | .inf => .fin 100
  | .ninf => .fin 100
  | .fin q => .fin (100 - 100 / (1 + q))

/-- Python `f"{x:.2f}"` on a float that may be non-finite. -/
def fmtRF : RFloat → String
  | .nan => "nan"
  | .inf => "inf"
  | .ninf => "-inf"
  | .fin q => fmt2 q

/-- The last `period` price deltas: `prices.diff()` restricted to the
rolling window that `rolling(period).mean().iloc[-1]` averages.  (The
leading NaN of `diff()` is coerced to 0 by the `where` masks and, given
the `len < period + 1` guard, never lies inside the final window.) -/
def lastDeltas (prices : List ℚ) (period : ℕ) : List ℚ :=
  let deltas := List.zipWith (fun a b => b - a) prices prices.tail
  deltas.drop (deltas.length - period)

/-- Rolling mean of the positive deltas (`gains`), as of the last row. -/
def rsiAvgGain (prices : List ℚ) (period : ℕ) : ℚ :=
  ((lastDeltas prices period).map fun d => max d 0).sum / (period : ℚ)

/-- Rolling mean of the negated negative deltas (`losses`), as of the
last row. -/
def rsiAvgLoss (prices : List ℚ) (period : ℕ) : ℚ :=
  ((lastDeltas prices period).map fun d => max (-d) 0).sum / (period : ℚ)

/-- Model of `calculate_rsi(prices, period)`: `None` below `period + 1` points,
otherwise `100 - 100/(1 + avg_gain/avg_loss)` under IEEE arithmetic. -/
def calculate_rsi (prices : List ℚ) (period : ℕ) : Option RFloat :=
  if prices.length < period + 1 then none
  else some (rsiOf (rsOf (rsiAvgGain prices period) (rsiAvgLoss prices period)))

/-! Section: Signal engine (src/backend/app/services/predictions.py) -/

/-- The indicator snapshot dictionary.  `rsi_14` is carried as an
`RFloat` because `calculate_rsi` can return NaN; the other entries used
by the fallback are plain finite floats or `None`. -/
structure Indicators where
  sma_20 : Option ℚ
  sma_50 : Option ℚ
  ema_12 : Option ℚ
  ema_26 : Option ℚ
  rsi_14 : Option RFloat
  macd : Option ℚ
  macd_signal : Option ℚ
  macd_histogram : Option ℚ
  bollinger_upper : Option ℚ
  bollinger_middle : Option ℚ
  bollinger_lower : Option ℚ
  volatility : Option ℚ
  deriving Repr, DecidableEq

structure Signal where
  action : String
  confidence : ℚ
  reason : String
  deriving Repr, DecidableEq

/-- Model of `rule_based_fallback(indicators)`: RSI base signal, then MACD
momentum confirmation, then moving-average crossover confirmation. -/
def rule_based_fallback (indicators : Indicators) : Signal :=
  let base : String × ℚ × String :=
    match indicators.rsi_14 with
    | some rsi =>
      if rsi.ltb (.fin 30) then
        ("BUY", 7/10, "RSI (" ++ fmtRF rsi ++ ") indicates oversold conditions")
      else if (RFloat.fin 70).ltb rsi then
        ("SELL", 7/10, "RSI (" ++ fmtRF rsi ++ ") indicates overbought conditions")
      else ("HOLD", 1/2, "Insufficient data for clear signal")
    | none => ("HOLD", 1/2, "Insufficient data for clear signal")
  let action := base.1
  let afterMacd : ℚ × String :=
    match indicators.macd_histogram with
    | some h =>
      if 0 < h ∧ action = "BUY" then
        (min (17/20) (base.2.1 + 3/20), base.2.2 ++ " with positive MACD momentum")
      else if h < 0 ∧ action = "SELL" then
        (min (17/20) (base.2.1 + 3/20), base.2.2 ++ " with negative MACD momentum")
      else (base.2.1, base.2.2)
    | none => (base.2.1, base.2.2)
  let afterSma : ℚ × String :=
    match indicators.sma_20, indicators.sma_50 with
    | some a, some b =>
      if b < a ∧ action = "BUY" then
        (min (9/10) (afterMacd.1 + 1/10), afterMacd.2 ++ " and bullish MA crossover")
      else if a < b ∧ action = "SELL" then
        (min (9/10) (afterMacd.1 + 1/10), afterMacd.2 ++ " and bearish MA crossover")
      else afterMacd
    | _, _ => afterMacd
  { action := action, confidence := afterSma.1, reason := afterSma.2 }

/-- A successfully parsed advisory JSON object; each field may be
missing (`result.get` defaults apply). -/
structure ParsedPrediction where
  action : Option String
  confidence : Option ℚ
  reason : Option String
  deriving Repr, DecidableEq

/-- The advisory success path of `get_claude_prediction`: the parsed
fields are passed through with defaults applied and the action
uppercased — no validation of the action set or confidence range. -/
def predictionOfParsed (p : ParsedPrediction) : Signal :=
  { action := (p.action.getD "HOLD").toUpper
    confidence := p.confidence.getD (1/2)
    reason := p.reason.getD "AI prediction" }

/-- Model of `get_claude_prediction(indicators, symbol)`: the outcome as a function of
the advisory response: `none` stands for every failure mode (no API key,
HTTP error, timeout, empty content, JSON parse error), all of which fall
back to the rule-based engine. -/
def get_claude_prediction (indicators : Indicators)
    (response : Option ParsedPrediction) : Signal :=
  match response with
  | some p => predictionOfParsed p
  | none => rule_based_fallback indicators

/-- The shape §4.3 promises of every decision: a known action and a
confidence within `[0, 1]`. -/
def signalShapeOK (s : Signal) : Prop :=
  s.action ∈ (["BUY", "SELL", "HOLD"] : List String) ∧
  0 ≤ s.confidence ∧ s.confidence ≤ 1

instance (s : Signal) : Decidable (signalShapeOK s) := by
  unfold signalShapeOK; infer_instance

/-! Section: Price simulator (src/backend/scheduler/price_simulator.py) -/

/-- Constant `BASE_VOLATILITY = 0.02` (scheduler/config.py). -/
def BASE_VOLATILITY : ℚ := 1/50

/-- Constant `VOLATILITY_RANGE = 0.005` (scheduler/config.py). -/
def VOLATILITY_RANGE : ℚ := 1/200

/-- One tick of `simulate_price_tick` for one ticker, as a function of
the last known price and the random draws: `u` is the uniform volatility
component in `[-VOLATILITY_RANGE, VOLATILITY_RANGE]`, `dir` the uniform
direction in `[-1, 1]`, and `momentum` whether the 30% momentum kick
fires.  Returns the price stored in the new `PriceTick` row. -/
def simulate_tick_price (last_price u dir : ℚ) (momentum : Bool) : ℚ :=
  let volatility := BASE_VOLATILITY + u
  let price_change := last_price * volatility * dir
  let new_price := max (last_price + price_change) 1
  let new_price' :=
    if momentum then
      new_price + last_price * (1/1000) * (if 0 < price_change then 1 else -1)
    else new_price
  round2 new_price'

/-- The historical backfill walk of `generate_historical_data`: starting
from the unrounded walk state `current_price`, emit `n` stored prices
(each the 2-digit rounding of `max(current + change, 1.0)`), threading
the unrounded state.  `rand i` gives the step's draws `(u, dir)`. -/
def genHistAux (rand : ℕ → ℚ × ℚ) (current_price : ℚ) (i : ℕ) : ℕ → List ℚ
  | 0 => []
  | n + 1 =>
    let u := (rand i).1
    let dir := (rand i).2
    let volatility := BASE_VOLATILITY + u
    let price_change := current_price * volatility * dir
    let next := max (current_price + price_change) 1
    round2 next :: genHistAux rand next (i + 1) n

/-- The stored prices produced by one ticker's backfill, from its
initial price. -/
def genHist (rand : ℕ → ℚ × ℚ) (initial_price : ℚ) (n : ℕ) : List ℚ :=
  genHistAux rand initial_price 0 n

/-- The number of iterations of `while current_time <= end_time` with
step `interval` (minutes). -/
def numTicks (start_time end_time interval : ℕ) : ℕ :=
  if start_time ≤ end_time then (end_time - start_time) / interval + 1 else 0

/-- Per-ticker body of `generate_historical_data`: skip entirely when
the ticker already has at least one price tick, otherwise append the
generated walk for the whole time range. -/
def generate_historical_data (rand : ℕ → ℚ × ℚ) (initial_price : ℚ)
    (start_time end_time interval : ℕ) (series : List ℚ) : List ℚ :=
  if 0 < series.length then series
  else series ++ genHist rand initial_price (numTicks start_time end_time interval)

/-! Section: Auto-trading orchestrator (src/backend/scheduler/auto_trader.py) -/

structure AutoTradeConfig where
  enabled : Bool
  confidence_threshold : ℚ
  max_trade_size : ℤ
  deriving Repr, DecidableEq

/-- Per-(account, ticker) body of `process_auto_trading`, given the
signal already obtained for the ticker: apply the confidence-threshold
filter, then dispatch on the action; BUY sizes the order as
`min(max_trade_size, int(cash/price))` and skips on zero, SELL sizes as
`min(max_trade_size, held quantity)` and skips without a position.
`none` means no trade was executed for the pair (skip, or an execution
error caught by the per-ticker `except` which leaves the processed state
unchanged); `some s'` is the account state after a committed trade. -/
def process_auto_trading_step (market : Market) (config : AutoTradeConfig)
    (signal : Signal) (s : AccountState) (ticker_id : ℕ) : Option AccountState :=
  if signal.confidence < config.confidence_threshold then none
  else if signal.action = "BUY" then
    match get_latest_price market ticker_id with
    | .error _ => none
    | .ok current_price =>
      let max_quantity := min config.max_trade_size
        (pyInt (s.cash_balance / current_price))
      if 0 < max_quantity then (execute_buy market s ticker_id max_quantity).toOption
      else none
  else if signal.action = "SELL" then
    match List.lookup ticker_id s.portfolios with
    | some portfolio =>
      if 0 < portfolio.quantity then
        let sell_quantity := min config.max_trade_size portfolio.quantity
        (execute_sell market s ticker_id sell_quantity).toOption
      else none
    | none => none
  else none

/-! Section: Assoc-list helper lemmas -/

theorem lookup_removeKey (l : List (ℕ × PortfolioPos)) (k : ℕ) :
    List.lookup k (removeKey l k) = none := by
  induction l with
  | nil => rfl
  | cons e t ih =>
    by_cases he : e.1 = k
    · simpa [removeKey, he] using ih
    · have hb : (k == e.1) = false := beq_eq_false_iff_ne.mpr (Ne.symm he)
      simpa [removeKey, he, List.lookup, hb] using ih

theorem lookup_setKey_self (l : List (ℕ × PortfolioPos)) (k : ℕ)
    (v w : PortfolioPos) (h : List.lookup k l = some w) :
    List.lookup k (setKey l k v) = some v := by
  induction l with
  | nil => simp [List.lookup] at h
  | cons e t ih =>
    obtain ⟨k', v'⟩ := e
    by_cases he : k' = k
    · simp only [setKey, List.map_cons, if_pos he]
      simp [List.lookup]
    · have hb : (k == k') = false := beq_eq_false_iff_ne.mpr (Ne.symm he)
      have h' : List.lookup k t = some w := by
        simpa [List.lookup, hb] using h
      simp only [setKey, List.map_cons, if_neg he]
      simpa [List.lookup, hb] using ih h'

theorem lookup_append_single (l : List (ℕ × PortfolioPos)) (k : ℕ)
    (v : PortfolioPos) (h : List.lookup k l = none) :
    List.lookup k (l ++ [(k, v)]) = some v := by
  induction l with
  | nil => simp [List.lookup]
  | cons e t ih =>
    obtain ⟨k', v'⟩ := e
    by_cases he : k' = k
    · have hb : (k == k') = true := beq_iff_eq.mpr he.symm
      simp [List.lookup, hb] at h
    · have hb : (k == k') = false := beq_eq_false_iff_ne.mpr (Ne.symm he)
      have h' : List.lookup k t = none := by simpa [List.lookup, hb] using h
      simpa [List.lookup, hb] using ih h'

/-- C2: on an account holding `pos.quantity` shares, `execute_sell` of
exactly that quantity succeeds and deletes the position row (a later
lookup finds no holding), while `execute_sell` of any strictly larger
quantity fails with the insufficient-shares error; the failure is raised
before any mutation and nothing is committed, so the position, the cash
balance and the trade log are untouched (the model returns no successor
state on error). -/
theorem c2_sell_full_deletes_oversell_fails (market : Market)
    (s : AccountState) (ticker_id : ℕ) (pos : PortfolioPos) (p : ℚ)
    (hm : List.lookup ticker_id market = some p)
    (hpos : List.lookup ticker_id s.portfolios = some pos) :
    (∃ s', execute_sell market s ticker_id pos.quantity = .ok s' ∧
       List.lookup ticker_id s'.portfolios = none ∧
       s'.cash_balance = s.cash_balance + p * (pos.quantity : ℚ)) ∧
    (∀ q', pos.quantity < q' →
       execute_sell market s ticker_id q' =
         .error ("Insufficient shares. You have " ++ toString pos.quantity ++
           ", trying to sell " ++ toString q')) := by
  constructor
  · refine ⟨{ cash_balance := s.cash_balance + p * (pos.quantity : ℚ),
              portfolios := removeKey s.portfolios ticker_id,
              trades := s.trades ++
                [{ ticker_id := ticker_id, action := "SELL",
                   quantity := pos.quantity, price := p,
                   total_amount := p * (pos.quantity : ℚ),
                   cash_after := s.cash_balance + p * (pos.quantity : ℚ) }] },
            ?_, ?_, rfl⟩
    · simp [execute_sell, get_latest_price, hm, hpos]
    · exact lookup_removeKey s.portfolios ticker_id
  · intro q' hq'
    simp only [execute_sell, get_latest_price, hm, hpos, if_pos hq']

/-- C2 witness: a held position of 3 shares at latest price 10; selling
exactly 3 deletes the row and credits 30. -/
theorem c2_witness :
    ∃ s', execute_sell [(1, 10)] ⟨100, [(1, ⟨3, 8, 9⟩)], []⟩ 1 3 = .ok s' ∧
      List.lookup 1 s'.portfolios = none ∧
      s'.cash_balance = (100 : ℚ) + 10 * ((3 : ℤ) : ℚ) :=
  (c2_sell_full_deletes_oversell_fails [(1, 10)] ⟨100, [(1, ⟨3, 8, 9⟩)], []⟩ 1
    ⟨3, 8, 9⟩ 10 rfl rfl).1

/-- C3: from no position, two BUYs of (q1 at p1) then (q2 at p2) leave a
position of q1+q2 shares whose average cost is the quantity-weighted
average `(q1*p1 + q2*p2)/(q1 + q2)`, and any subsequent successful SELL
(of any quantity up to the holding) leaves the average cost basis of the
remaining position unchanged — only BUY recomputes it. -/
theorem c3_avg_cost_basis (m1 m2 : Market) (s : AccountState) (ticker_id : ℕ)
    (q1 q2 : ℤ) (p1 p2 : ℚ)
    (h1 : List.lookup ticker_id m1 = some p1)
    (h2 : List.lookup ticker_id m2 = some p2)
    (hnopos : List.lookup ticker_id s.portfolios = none)
    (hq1 : 0 < q1) (hq2 : 0 < q2)
    (hc1 : ¬ s.cash_balance < p1 * (q1 : ℚ))
    (hc2 : ¬ s.cash_balance - p1 * (q1 : ℚ) < p2 * (q2 : ℚ)) :
    ∃ s1 s2 pos2,
      execute_buy m1 s ticker_id q1 = .ok s1 ∧
      execute_buy m2 s1 ticker_id q2 = .ok s2 ∧
      List.lookup ticker_id s2.portfolios = some pos2 ∧
      pos2.quantity = q1 + q2 ∧
      pos2.avg_price = ((q1 : ℚ) * p1 + (q2 : ℚ) * p2) / ((q1 : ℚ) + (q2 : ℚ)) ∧
      (∀ (m3 : Market) (p3 : ℚ) (q3 : ℤ), List.lookup ticker_id m3 = some p3 →
        q3 ≤ q1 + q2 →
        ∃ s3, execute_sell m3 s2 ticker_id q3 = .ok s3 ∧
          ∀ pos3, List.lookup ticker_id s3.portfolios = some pos3 →
            pos3.avg_price = pos2.avg_price) := by
  set pos1 : PortfolioPos := ⟨q1, p1, p1⟩ with hpos1
  set s1 : AccountState :=
    { cash_balance := s.cash_balance - p1 * (q1 : ℚ)
      portfolios := s.portfolios ++ [(ticker_id, pos1)]
      trades := s.trades ++
        [{ ticker_id := ticker_id, action := "BUY", quantity := q1,
           price := p1, total_amount := p1 * (q1 : ℚ),
           cash_after := s.cash_balance - p1 * (q1 : ℚ) }] } with hs1
  have hb1 : execute_buy m1 s ticker_id q1 = .ok s1 := by
    simp [execute_buy, get_latest_price, h1, hnopos, hc1, hs1]
  have hs1pos : List.lookup ticker_id s1.portfolios = some pos1 :=
    lookup_append_single s.portfolios ticker_id pos1 hnopos
  set pos2 : PortfolioPos :=
    ⟨q1 + q2, (p1 * (q1 : ℚ) + p2 * (q2 : ℚ)) / (((q1 + q2 : ℤ)) : ℚ), p2⟩ with hpos2
  set s2 : AccountState :=
    { cash_balance := s1.cash_balance - p2 * (q2 : ℚ)
      portfolios := setKey s1.portfolios ticker_id pos2
      trades := s1.trades ++
        [{ ticker_id := ticker_id, action := "BUY", quantity := q2,
           price := p2, total_amount := p2 * (q2 : ℚ),
           cash_after := s1.cash_balance - p2 * (q2 : ℚ) }] } with hs2
  have hb2 : execute_buy m2 s1 ticker_id q2 = .ok s2 := by
    simp [execute_buy, get_latest_price, h2, hs1pos, hs2, hpos2, hs1, hc2]
  have hlook2 : List.lookup ticker_id s2.portfolios = some pos2 :=
    lookup_setKey_self s1.portfolios ticker_id pos2 pos1 hs1pos
  refine ⟨s1, s2, pos2, hb1, hb2, hlook2, rfl, ?_, ?_⟩
  · show (p1 * (q1 : ℚ) + p2 * (q2 : ℚ)) / (((q1 + q2 : ℤ)) : ℚ) =
      ((q1 : ℚ) * p1 + (q2 : ℚ) * p2) / ((q1 : ℚ) + (q2 : ℚ))
    push_cast
    ring
  · intro m3 p3 q3 hm3 hq3
    have hnl : ¬ pos2.quantity < q3 := not_lt.mpr (by simpa [hpos2] using hq3)
    by_cases hz : pos2.quantity - q3 = 0
    · refine ⟨{ cash_balance := s2.cash_balance + p3 * (q3 : ℚ)
                portfolios := removeKey s2.portfolios ticker_id
                trades := s2.trades ++
                  [{ ticker_id := ticker_id, action := "SELL", quantity := q3,
                     price := p3, total_amount := p3 * (q3 : ℚ),
                     cash_after := s2.cash_balance + p3 * (q3 : ℚ) }] }, ?_, ?_⟩
      · simp [execute_sell, get_latest_price, hm3, hlook2, hnl, hz]
      · intro pos3 hcon
        rw [lookup_removeKey] at hcon
        cases hcon
    · refine ⟨{ cash_balance := s2.cash_balance + p3 * (q3 : ℚ)
                portfolios := setKey s2.portfolios ticker_id
                  { pos2 with quantity := pos2.quantity - q3, current_price := p3 }
                trades := s2.trades ++
                  [{ ticker_id := ticker_id, action := "SELL", quantity := q3,
                     price := p3, total_amount := p3 * (q3 : ℚ),
                     cash_after := s2.cash_balance + p3 * (q3 : ℚ) }] }, ?_, ?_⟩
      · simp [execute_sell, get_latest_price, hm3, hlook2, hnl, hz]
      · intro pos3 hp3
        rw [lookup_setKey_self s2.portfolios ticker_id _ pos2 hlook2] at hp3
        injection hp3 with hp3
        subst hp3
        rfl

/-- C3 witness: buy 2 at 10 then 3 at 20 from a 1000 cash account; the
average cost is (2*10+3*20)/5 = 16. -/
theorem c3_witness :
    ∃ s1 s2 pos2,
      execute_buy [(1, 10)] ⟨1000, [], []⟩ 1 2 = .ok s1 ∧
      execute_buy [(1, 20)] s1 1 3 = .ok s2 ∧
      List.lookup 1 s2.portfolios = some pos2 ∧
      pos2.quantity = 2 + 3 ∧
      pos2.avg_price =
        (((2 : ℤ) : ℚ) * 10 + ((3 : ℤ) : ℚ) * 20) / (((2 : ℤ) : ℚ) + ((3 : ℤ) : ℚ)) ∧
      (∀ (m3 : Market) (p3 : ℚ) (q3 : ℤ), List.lookup 1 m3 = some p3 →
        q3 ≤ 2 + 3 →
        ∃ s3, execute_sell m3 s2 1 q3 = .ok s3 ∧
          ∀ pos3, List.lookup 1 s3.portfolios = some pos3 →
            pos3.avg_price = pos2.avg_price) :=
  c3_avg_cost_basis [(1, 10)] [(1, 20)] ⟨1000, [], []⟩ 1 2 3 10 20 rfl rfl rfl
    (by norm_num) (by norm_num) (by norm_num) (by norm_num)

/-! Section: Lemmas about operation sequences -/

theorem runOp_ok_spec (s : AccountState) (op : Op) (s' : AccountState)
    (h : runOp s op = .ok s') :
    s'.cash_balance = s.cash_balance + opDelta op ∧
    ∃ t : TradeRec, s'.trades = s.trades ++ [t] ∧ t.cash_after = s'.cash_balance := by
  obtain ⟨side, market, ticker_id, quantity⟩ := op
  cases side with
  | buy =>
    simp only [runOp, execute_buy, get_latest_price] at h
    cases hl : List.lookup ticker_id market with
    | none => rw [hl] at h; cases h
    | some p =>
      rw [hl] at h
      simp only at h
      split_ifs at h with hcash
      cases hp : List.lookup ticker_id s.portfolios with
      | none =>
        rw [hp] at h
        simp only at h
        injection h with h
        subst h
        refine ⟨?_, ⟨_, rfl, rfl⟩⟩
        simp [opDelta, opResolvedPrice, hl]
        ring
      | some portfolio =>
        rw [hp] at h
        simp only at h
        injection h with h
        subst h
        refine ⟨?_, ⟨_, rfl, rfl⟩⟩
        simp [opDelta, opResolvedPrice, hl]
        ring
  | sell =>
    simp only [runOp, execute_sell, get_latest_price] at h
    cases hl : List.lookup ticker_id market with
    | none => rw [hl] at h; cases h
    | some p =>
      rw [hl] at h
      simp only at h
      cases hp : List.lookup ticker_id s.portfolios with
      | none => rw [hp] at h; cases h
      | some portfolio =>
        rw [hp] at h
        simp only at h
        split_ifs at h with hqty hz
        · injection h with h
          subst h
          refine ⟨?_, ⟨_, rfl, rfl⟩⟩
          simp [opDelta, opResolvedPrice, hl]
        · injection h with h
          subst h
          refine ⟨?_, ⟨_, rfl, rfl⟩⟩
          simp [opDelta, opResolvedPrice, hl]

theorem runOps_ok_cash : ∀ (ops : List Op) (s s' : AccountState),
    runOps s ops = .ok s' → s'.cash_balance = s.cash_balance + sumDelta ops := by
  intro ops
  induction ops with
  | nil =>
    intro s s' h
    simp only [runOps] at h
    injection h with h
    subst h
    simp [sumDelta]
  | cons op rest ih =>
    intro s s' h
    simp only [runOps] at h
    cases hop : runOp s op with
    | error e => rw [hop] at h; cases h
    | ok s1 =>
      rw [hop] at h
      have h1 := (runOp_ok_spec s op s1 hop).1
      have h2 := ih s1 s' h
      simp only [sumDelta, List.map_cons, List.sum_cons] at *
      linarith

theorem sumDelta_split : ∀ ops : List Op,
    sumDelta ops = -sumBuyCost ops + sumSellRev ops := by
  intro ops
  induction ops with
  | nil => simp [sumDelta, sumBuyCost, sumSellRev]
  | cons op rest ih =>
    obtain ⟨side, market, ticker_id, quantity⟩ := op
    cases side with
    | buy =>
      simp only [sumDelta, sumBuyCost, sumSellRev, List.map_cons, List.sum_cons,
        opDelta] at *
      linarith
    | sell =>
      simp only [sumDelta, sumBuyCost, sumSellRev, List.map_cons, List.sum_cons,
        opDelta] at *
      linarith

theorem runOps_trades_len : ∀ (ops : List Op) (s s' : AccountState),
    runOps s ops = .ok s' → s'.trades.length = s.trades.length + ops.length := by
  intro ops
  induction ops with
  | nil =>
    intro s s' h
    simp only [runOps] at h
    injection h with h
    subst h
    simp
  | cons op rest ih =>
    intro s s' h
    simp only [runOps] at h
    cases hop : runOp s op with
    | error e => rw [hop] at h; cases h
    | ok s1 =>
      rw [hop] at h
      obtain ⟨t, ht, -⟩ := (runOp_ok_spec s op s1 hop).2
      have h2 := ih s1 s' h
      rw [h2, ht]
      simp
      omega

theorem runOps_split : ∀ (l₁ l₂ : List Op) (s s' : AccountState),
    runOps s (l₁ ++ l₂) = .ok s' →
    ∃ s₁, runOps s l₁ = .ok s₁ ∧ runOps s₁ l₂ = .ok s' := by
  intro l₁
  induction l₁ with
  | nil => intro l₂ s s' h; exact ⟨s, rfl, h⟩
  | cons op rest ih =>
    intro l₂ s s' h
    simp only [List.cons_append, runOps] at h ⊢
    cases hop : runOp s op with
    | error e => rw [hop] at h; cases h
    | ok s1 =>
      rw [hop] at h
      exact ih l₂ s1 s' h

theorem runOps_last_trade : ∀ (ops : List Op), ops ≠ [] →
    ∀ (s s' : AccountState), runOps s ops = .ok s' →
    ∃ t, s'.trades.getLast? = some t ∧ t.cash_after = s'.cash_balance := by
  intro ops
  induction ops with
  | nil => intro h; exact absurd rfl h
  | cons op rest ih =>
    intro _ s s' h
    simp only [runOps] at h
    cases hop : runOp s op with
    | error e => rw [hop] at h; cases h
    | ok s1 =>
      rw [hop] at h
      by_cases hr : rest = []
      · subst hr
        simp only [runOps] at h
        injection h with h
        subst h
        obtain ⟨t, ht, htc⟩ := (runOp_ok_spec s op _ hop).2
        exact ⟨t, by rw [ht]; exact List.getLast?_concat _, htc⟩
      · exact ih hr s1 s' h

/-- C1: monetary conservation.  For every account state and every
sequence of successful `execute_buy`/`execute_sell` operations, the final
cash balance equals the initial balance minus the BUY costs plus the SELL
revenues (each `price * quantity` at the price the operation resolved),
exactly one trade record is appended per operation, and after each prefix
of the sequence the just-appended trade record's `cash_after` equals the
account's cash balance at that point. -/
theorem c1_monetary_conservation (s s' : AccountState) (ops : List Op)
    (h : runOps s ops = .ok s') :
    s'.cash_balance = s.cash_balance - sumBuyCost ops + sumSellRev ops ∧
    s'.trades.length = s.trades.length + ops.length ∧
    ∀ n, n < ops.length →
      ∃ sn t, runOps s (ops.take (n + 1)) = .ok sn ∧
        sn.trades.getLast? = some t ∧ t.cash_after = sn.cash_balance := by
  refine ⟨?_, runOps_trades_len ops s s' h, ?_⟩
  · have hc := runOps_ok_cash ops s s' h
    rw [sumDelta_split] at hc
    linarith
  · intro n hn
    have hsp : runOps s (ops.take (n + 1) ++ ops.drop (n + 1)) = .ok s' := by
      rw [List.take_append_drop]; exact h
    obtain ⟨s₁, h1, -⟩ := runOps_split (ops.take (n + 1)) (ops.drop (n + 1)) s s' hsp
    have hne : ops.take (n + 1) ≠ [] := by
      intro hcon
      have hlen : (ops.take (n + 1)).length = min (n + 1) ops.length :=
        List.length_take _ _
      rw [hcon] at hlen
      simp at hlen
      omega
    obtain ⟨t, ht1, ht2⟩ := runOps_last_trade _ hne s s₁ h1
    exact ⟨s₁, t, h1, ht1, ht2⟩

def c1S : AccountState := ⟨100, [], []⟩

def c1Ops : List Op := [⟨.buy, [(1, 10)], 1, 2⟩, ⟨.sell, [(1, 15)], 1, 1⟩]

def c1S' : AccountState :=
  ⟨95, [(1, ⟨1, 10, 15⟩)],
    [⟨1, "BUY", 2, 10, 20, 80⟩, ⟨1, "SELL", 1, 15, 15, 95⟩]⟩

/-- C1 witness: buy 2 at 10 then sell 1 at 15 from 100 cash, ending at
100 - 20 + 15 = 95. -/
theorem c1_witness :
    c1S'.cash_balance = c1S.cash_balance - sumBuyCost c1Ops + sumSellRev c1Ops ∧
    c1S'.trades.length = c1S.trades.length + c1Ops.length ∧
    ∀ n, n < c1Ops.length →
      ∃ sn t, runOps c1S (c1Ops.take (n + 1)) = .ok sn ∧
        sn.trades.getLast? = some t ∧ t.cash_after = sn.cash_balance :=
  c1_monetary_conservation c1S c1S' c1Ops (by
    norm_num [runOps, runOp, execute_buy, execute_sell, get_latest_price,
      List.lookup, c1S, c1Ops, c1S', setKey, removeKey])

/-- C7: the auto-trading confidence filter is strict: any candidate whose
signal confidence is strictly below the account's threshold is skipped
with no execution attempted, and a candidate whose confidence exactly
equals the threshold passes the filter (demonstrated by a threshold-0.8
BUY signal of confidence exactly 0.8 that executes a trade). -/
theorem c7_confidence_threshold_filter :
    (∀ (market : Market) (config : AutoTradeConfig) (signal : Signal)
        (s : AccountState) (ticker_id : ℕ),
      signal.confidence < config.confidence_threshold →
      process_auto_trading_step market config signal s ticker_id = none) ∧
    (process_auto_trading_step [(1, 10)] ⟨true, 4/5, 5⟩ ⟨"BUY", 4/5, "r"⟩
      ⟨1000, [], []⟩ 1).isSome = true := by
  constructor
  · intro market config signal s ticker_id h
    unfold process_auto_trading_step
    rw [if_pos h]
  · norm_num [process_auto_trading_step, get_latest_price, List.lookup, pyInt,
      execute_buy, Except.toOption]

/-- C7 witness: threshold 0.8, BUY signal of confidence 0.75 — no trade
is executed for the pair. -/
theorem c7_witness :
    process_auto_trading_step [(1, 10)] ⟨true, 4/5, 5⟩ ⟨"BUY", 3/4, "r"⟩
      ⟨1000, [], []⟩ 1 = none :=
  c7_confidence_threshold_filter.1 [(1, 10)] ⟨true, 4/5, 5⟩ ⟨"BUY", 3/4, "r"⟩
    ⟨1000, [], []⟩ 1 (by norm_num)

/-- C10: a signal whose action is neither BUY nor SELL (e.g. HOLD) never
triggers an execution in the auto-trading cycle, however high its
confidence is relative to the threshold. -/
theorem c10_non_directional_never_executes (market : Market)
    (config : AutoTradeConfig) (signal : Signal) (s : AccountState)
    (ticker_id : ℕ) (hb : signal.action ≠ "BUY") (hs : signal.action ≠ "SELL") :
    process_auto_trading_step market config signal s ticker_id = none := by
  unfold process_auto_trading_step
  by_cases h1 : signal.confidence < config.confidence_threshold
  · rw [if_pos h1]
  · rw [if_neg h1, if_neg hb, if_neg hs]

/-- C10 witness: a full-confidence HOLD signal over a zero threshold
executes nothing. -/
theorem c10_witness :
    process_auto_trading_step [(1, 10)] ⟨true, 0, 5⟩ ⟨"HOLD", 1, "r"⟩
      ⟨1000, [], []⟩ 1 = none :=
  c10_non_directional_never_executes [(1, 10)] ⟨true, 0, 5⟩ ⟨"HOLD", 1, "r"⟩
    ⟨1000, [], []⟩ 1 (by decide) (by decide)

/-- C5 (amended): the rule-based fallback always returns one of
BUY/SELL/HOLD with confidence in [0,1], and every advisory failure path
returns exactly the fallback signal; the advisory success path, however,
passes the parsed fields through unvalidated (see the counterexample). -/
theorem c5_signal_shape :
    (∀ indicators : Indicators,
      signalShapeOK (rule_based_fallback indicators)) ∧
    (∀ indicators : Indicators,
      get_claude_prediction indicators none = rule_based_fallback indicators) := by
  constructor
  · intro ind
    unfold signalShapeOK
    rcases hrsi : ind.rsi_14 with _ | r <;>
      rcases hmh : ind.macd_histogram with _ | h <;>
      rcases h20 : ind.sma_20 with _ | a <;>
      rcases h50 : ind.sma_50 with _ | b <;>
      simp only [rule_based_fallback, hrsi, hmh, h20, h50] <;>
      (try split_ifs) <;>
      exact ⟨by simp, by norm_num [min_def], by norm_num [min_def]⟩
  · intro ind
    rfl

def c5Ind : Indicators :=
  ⟨none, none, none, none, none, none, none, none, none, none, none, none⟩

/-- A syntactically well-formed advisory JSON object with out-of-range
field values: `{"action": "maybe", "confidence": 2.0, "reason": "because"}`. -/
def c5BadResponse : ParsedPrediction := ⟨some ("maybe"), some 2, some ("because")⟩

/-- C5 counterexample: on a well-formed advisory response with arbitrary
field values, the signal-decision operation returns confidence 2 ∉ [0,1]
(and action "MAYBE"), so the claimed shape guarantee fails as stated. -/
theorem c5_counterexample :
    ¬ signalShapeOK (get_claude_prediction c5Ind (some c5BadResponse)) := by
  intro hshape
  have h2 := hshape.2.2
  simp only [get_claude_prediction, predictionOfParsed, c5BadResponse,
    Option.getD] at h2
  norm_num at h2

def c4Ind : Indicators :=
  { sma_20 := some 110, sma_50 := some 100, ema_12 := none, ema_26 := none,
    rsi_14 := some (.fin 25), macd := none, macd_signal := none,
    macd_histogram := some (1/2), bollinger_upper := none,
    bollinger_middle := none, bollinger_lower := none, volatility := none }

/-- C4: on the snapshot RSI=25, MACD histogram=+0.5, SMA20=110>SMA50=100,
the rule-based fallback answers BUY with confidence exactly 0.90
(0.70 + 0.15 capped at 0.85, + 0.10 capped at 0.90) and the reason
carries both the momentum clause and the crossover clause. -/
theorem c4_full_confirmation :
    (rule_based_fallback c4Ind).action = "BUY" ∧
    (rule_based_fallback c4Ind).confidence = 9/10 ∧
    (∃ pre post, (rule_based_fallback c4Ind).reason =
      pre ++ " with positive MACD momentum" ++ post) ∧
    (∃ pre, (rule_based_fallback c4Ind).reason =
      pre ++ " and bullish MA crossover") := by
  have hred : rule_based_fallback c4Ind =
      { action := "BUY"
        confidence := min (9/10) (min (17/20) (7/10 + 3/20) + 1/10)
        reason := (("RSI (" ++ fmtRF (.fin 25) ++ ") indicates oversold conditions") ++
          " with positive MACD momentum") ++ " and bullish MA crossover" } := by
    simp only [rule_based_fallback, c4Ind, RFloat.ltb]
    norm_num
  rw [hred]
  refine ⟨rfl, by norm_num [min_def], ⟨_, _, rfl⟩, ⟨_, rfl⟩⟩

/-- C6 (amended): with fewer than 15 points the RSI is reported
unavailable (`none`, not zero and not an error); with at least 15 points,
a zero rolling average loss and a positive rolling average gain give RSI
exactly 100.  (When the average gain is zero as well — e.g. a constant
window — the float pipeline yields NaN, not 100; see the
counterexample.) -/
theorem c6_rsi_unavailable_and_zero_loss :
    (∀ prices : List ℚ, prices.length < 15 → calculate_rsi prices 14 = none) ∧
    (∀ prices : List ℚ, ¬ prices.length < 15 →
      rsiAvgLoss prices 14 = 0 → 0 < rsiAvgGain prices 14 →
      calculate_rsi prices 14 = some (.fin 100)) := by
  constructor
  · intro prices h
    unfold calculate_rsi
    rw [if_pos (by omega : prices.length < 14 + 1)]
  · intro prices h hl hg
    have h15 : ¬ prices.length < 14 + 1 := by omega
    simp [calculate_rsi, h15, hl, rsOf, hg.ne', hg, rsiOf]

/-- C6 witness: 15 strictly rising prices have zero average loss and
positive average gain, so the amended theorem applies; a 14-point series
is reported unavailable. -/
theorem c6_witness :
    calculate_rsi [1, 2, 3, 4, 5, 6, 7, 8, 9, 10, 11, 12, 13, 14] 14 = none ∧
    calculate_rsi [1, 2, 3, 4, 5, 6, 7, 8, 9, 10, 11, 12, 13, 14, 15] 14 =
      some (.fin 100) :=
  ⟨c6_rsi_unavailable_and_zero_loss.1 _ (by norm_num),
   c6_rsi_unavailable_and_zero_loss.2 _ (by norm_num)
     (by norm_num [rsiAvgLoss, lastDeltas])
     (by norm_num [rsiAvgGain, lastDeltas])⟩

def c6ConstPrices : List ℚ :=
  [100, 100, 100, 100, 100, 100, 100, 100, 100, 100, 100, 100, 100, 100, 100]

/-- C6 counterexample: a constant series of 15 points has rolling
average loss 0, yet the RSI computed by the code is NaN
(`0.0/0.0 = NaN` propagates), not 100 as the claim states. -/
theorem c6_counterexample :
    15 ≤ c6ConstPrices.length ∧
    rsiAvgLoss c6ConstPrices 14 = 0 ∧
    calculate_rsi c6ConstPrices 14 = some RFloat.nan ∧
    some RFloat.nan ≠ some (RFloat.fin 100) := by
  have hg : rsiAvgGain c6ConstPrices 14 = 0 := by
    norm_num [rsiAvgGain, lastDeltas, c6ConstPrices]
  have hl : rsiAvgLoss c6ConstPrices 14 = 0 := by
    norm_num [rsiAvgLoss, lastDeltas, c6ConstPrices]
  have hlen : ¬ c6ConstPrices.length < 14 + 1 := by norm_num [c6ConstPrices]
  refine ⟨by norm_num [c6ConstPrices], hl, ?_, by simp⟩
  simp [calculate_rsi, hlen, hg, hl, rsOf, rsiOf]

theorem genHistAux_length : ∀ (n : ℕ) (rand : ℕ → ℚ × ℚ) (cur : ℚ) (i : ℕ),
    (genHistAux rand cur i n).length = n := by
  intro n
  induction n with
  | zero => intro rand cur i; rfl
  | succ n ih => intro rand cur i; simp [genHistAux, ih]

/-- C9: the backfill is idempotent.  One call on an empty series fills
the whole time range; because the filled series is nonempty, a second
call (with fresh randomness) appends nothing, and on an already nonempty
series the call is a no-op from the start — two consecutive calls leave
exactly the state of a single call. -/
theorem c9_backfill_idempotent (r1 r2 : ℕ → ℚ × ℚ) (initial_price : ℚ)
    (start_time end_time interval : ℕ) (series : List ℚ)
    (hse : start_time ≤ end_time) (hi : 0 < interval) :
    generate_historical_data r2 initial_price start_time end_time interval
      (generate_historical_data r1 initial_price start_time end_time interval series) =
    generate_historical_data r1 initial_price start_time end_time interval series := by
  unfold generate_historical_data
  by_cases hs : 0 < series.length
  · rw [if_pos hs, if_pos hs]
  · rw [if_neg hs]
    have hlen : 0 < (series ++
        genHist r1 initial_price (numTicks start_time end_time interval)).length := by
      rw [List.length_append, genHist, genHistAux_length, numTicks, if_pos hse]
      exact Nat.add_pos_right _ (Nat.succ_pos _)
    rw [if_pos hlen]

/-- C9 witness: backfilling an empty series twice (10 time units, step
5) equals a single backfill. -/
theorem c9_witness :
    generate_historical_data (fun _ => (0, 0)) 100 0 10 5
      (generate_historical_data (fun _ => (0, 0)) 100 0 10 5 []) =
    generate_historical_data (fun _ => (0, 0)) 100 0 10 5 [] :=
  c9_backfill_idempotent (fun _ => (0, 0)) (fun _ => (0, 0)) 100 0 10 5 []
    (by norm_num) (by norm_num)

theorem roundHalfEven_half_lt {n : ℤ} {x : ℚ} (h : (n : ℚ) + 1/2 < x) :
    n + 1 ≤ roundHalfEven x := by
  have hf1 : (⌊x⌋ : ℚ) ≤ x := Int.floor_le x
  have hf2 : x < ⌊x⌋ + 1 := Int.lt_floor_add_one x
  simp only [roundHalfEven]
  split_ifs with h1 h2 h3
  · have hq : (n : ℚ) < (⌊x⌋ : ℚ) := by linarith
    have : n < ⌊x⌋ := by exact_mod_cast hq
    omega
  · have hq : (n : ℚ) < (⌊x⌋ : ℚ) + 1 := by linarith
    have : n < ⌊x⌋ + 1 := by exact_mod_cast hq
    omega
  · have hx : x - (⌊x⌋ : ℚ) = 1/2 := le_antisymm (not_lt.mp h2) (not_lt.mp h1)
    have hq : (n : ℚ) < (⌊x⌋ : ℚ) := by linarith
    have : n < ⌊x⌋ := by exact_mod_cast hq
    omega
  · have hx : x - (⌊x⌋ : ℚ) = 1/2 := le_antisymm (not_lt.mp h2) (not_lt.mp h1)
    have hq : (n : ℚ) < (⌊x⌋ : ℚ) := by linarith
    have : n < ⌊x⌋ := by exact_mod_cast hq
    omega

theorem round2_pos {x : ℚ} (h : 199/200 < x) : 0 < round2 x := by
  unfold round2
  have h2 : (99 : ℤ) + 1 ≤ roundHalfEven (x * 100) :=
    roundHalfEven_half_lt (n := 99) (by push_cast; linarith)
  have h3 : (100 : ℚ) ≤ ((roundHalfEven (x * 100) : ℤ) : ℚ) := by
    exact_mod_cast h2
  linarith

theorem genHistAux_pos : ∀ (n : ℕ) (rand : ℕ → ℚ × ℚ) (cur : ℚ) (i : ℕ) (x : ℚ),
    x ∈ genHistAux rand cur i n → 0 < x := by
  intro n
  induction n with
  | zero => intro rand cur i x hx; simp [genHistAux] at hx
  | succ n ih =>
    intro rand cur i x hx
    simp only [genHistAux, List.mem_cons] at hx
    rcases hx with hx | hx
    · subst hx
      apply round2_pos
      have h1 : (1 : ℚ) ≤
          max (cur + cur * (BASE_VOLATILITY + (rand i).1) * (rand i).2) 1 :=
        le_max_right _ _
      linarith
    · exact ih rand _ _ x hx

/-- C8: every price stored by the simulator is strictly positive: every
point of the historical backfill walk (which floors the walk at 1.0
before rounding), and every live tick, for every prior positive price
and every admissible draw of the volatility component, the direction,
and the momentum kick (which is added after the floor). -/
theorem c8_price_positivity :
    (∀ (rand : ℕ → ℚ × ℚ) (initial_price : ℚ) (n : ℕ) (x : ℚ),
        x ∈ genHist rand initial_price n → 0 < x) ∧
    (∀ (last_price u dir : ℚ) (momentum : Bool),
        0 < last_price → -VOLATILITY_RANGE ≤ u → u ≤ VOLATILITY_RANGE →
        -1 ≤ dir → dir ≤ 1 →
        0 < simulate_tick_price last_price u dir momentum) := by
  constructor
  · intro rand initial_price n x hx
    exact genHistAux_pos n rand initial_price 0 x hx
  · intro lp u dir mom hlp hu1 hu2 hd1 hd2
    simp only [VOLATILITY_RANGE] at hu1 hu2
    unfold simulate_tick_price
    simp only [BASE_VOLATILITY]
    apply round2_pos
    have hvol2 : (1 : ℚ)/50 + u ≤ 1/40 := by linarith
    have hvnn : (0 : ℚ) ≤ lp * (1/50 + u) := mul_nonneg hlp.le (by linarith)
    have hch1 : -(lp * (1/40)) ≤ lp * (1/50 + u) * dir := by
      have ha : (lp * (1/50 + u)) * (-1) ≤ (lp * (1/50 + u)) * dir :=
        mul_le_mul_of_nonneg_left hd1 hvnn
      have hb : lp * (1/50 + u) ≤ lp * (1/40) :=
        mul_le_mul_of_nonneg_left hvol2 hlp.le
      linarith
    have hmax1 : (1 : ℚ) ≤ max (lp + lp * (1/50 + u) * dir) 1 := le_max_right _ _
    have hmax2 : lp + lp * (1/50 + u) * dir ≤ max (lp + lp * (1/50 + u) * dir) 1 :=
      le_max_left _ _
    have key : ∀ t : ℚ, -(lp * (1/1000)) ≤ t →
        199/200 < max (lp + lp * (1/50 + u) * dir) 1 + t := by
      intro t ht
      rcases le_or_lt lp (40/39) with hc | hc
      · linarith
      · linarith
    cases mom with
    | false =>
      simp only [Bool.false_eq_true, if_false]
      have := key 0 (by linarith)
      linarith
    | true =>
      simp only [if_true]
      split_ifs with hsign
      · exact key (lp * (1/1000) * 1) (by linarith)
      · exact key (lp * (1/1000) * (-1)) (by linarith)

/-- C8 witness: a one-step backfill from price 100 with null draws
stores price 100 > 0, and a live tick from price 150 yields a positive
stored price. -/
theorem c8_witness :
    (0 : ℚ) < 100 ∧ 0 < simulate_tick_price 150 0 0 false :=
  ⟨c8_price_positivity.1 (fun _ => (0, 0)) 100 1 100 (by
      norm_num [genHist, genHistAux, BASE_VOLATILITY, round2, roundHalfEven]),
   c8_price_positivity.2 150 0 0 false (by norm_num)
     (by norm_num [VOLATILITY_RANGE]) (by norm_num [VOLATILITY_RANGE])
     (by norm_num) (by norm_num)⟩
